import Mathlib

/-!
Verification of the isa-chat frontend services against their specification.

The development shallowly embeds the three testable frontend services:

* `FileH`   — the attachment ingestion pipeline
              (`src/frontend/src/services/fileHandler.ts`);
* `Dispatch` — the client-side message dispatch queue
              (`src/frontend/src/services/chat.ts`);
* `WSearch` — the web-search result cache
              (`src/frontend/src/services/webSearch.ts`).

Machine integers are modelled by `Nat`, byte buffers by `List Nat`,
image dimensions by `ℚ` (the source computes them with JavaScript
numbers; every operation performed on them here is exact on rationals),
and fallible operations by `Except`.
-/

namespace FileH

/-- A browser `File` as the validation pipeline observes it: a declared
media type (`file.type`), a name, and the content bytes obtained from
`file.arrayBuffer()`.  A `File`'s `size` property equals the byte length
of its contents, so `size` is derived rather than stored. -/
structure SimFile where
  name : String
  mimeType : String
  bytes : List Nat
  deriving Repr, DecidableEq

/-- `file.size`: the byte length of the file. -/
def SimFile.size (f : SimFile) : Nat := f.bytes.length

/-- The three validation failures raised by `validateFile`
(`TooLarge` / `UnsupportedType` / `CorruptFile` in the spec's taxonomy). -/
inductive FileError where
  | TooLarge
  | UnsupportedType
  | CorruptFile
  deriving Repr, DecidableEq

/-- `SUPPORTED_IMAGE_TYPES` from `fileHandler.ts`. -/
def SUPPORTED_IMAGE_TYPES : List String :=
  ["image/jpeg", "image/png", "image/gif", "image/webp"]

/-- `SUPPORTED_DOCUMENT_TYPES` from `fileHandler.ts`. -/
def SUPPORTED_DOCUMENT_TYPES : List String :=
  ["application/pdf", "application/msword",
   "application/vnd.openxmlformats-officedocument.wordprocessingml.document",
   "text/plain"]

/-- `signature.every((byte, i) => bytes[i] === byte)`: each byte of the
signature must be present at the corresponding index of the buffer (an
out-of-range access yields `undefined`, which is never `===` a number). -/
def signatureMatches : List Nat → List Nat → Bool
  | [], _ => true
  | _ :: _, [] => false
  | s :: ss, b :: bs => s == b && signatureMatches ss bs

/-- `validateImageSignature`: the buffer must begin with one of the
JPEG / PNG / GIF magic numbers. -/
def validateImageSignature (bytes : List Nat) : Bool :=
  signatureMatches [0xFF, 0xD8, 0xFF] bytes ||
  signatureMatches [0x89, 0x50, 0x4E, 0x47] bytes ||
  signatureMatches [0x47, 0x49, 0x46, 0x38] bytes

/-- `validatePDFSignature`: the buffer must begin with `%PDF`. -/
def validatePDFSignature (bytes : List Nat) : Bool :=
  signatureMatches [0x25, 0x50, 0x44, 0x46] bytes

/-- `validateFileIntegrity`: image types are checked against the image
signatures, `application/pdf` against the PDF signature, and any other
type only needs non-empty content. -/
def validateFileIntegrity (f : SimFile) : Bool :=
  if SUPPORTED_IMAGE_TYPES.contains f.mimeType then
    validateImageSignature f.bytes
  else if f.mimeType == "application/pdf" then
    validatePDFSignature f.bytes
  else
    decide (f.bytes.length > 0)

/-- `validateFile`, parameterised by the configured `MAX_FILE_SIZE`:
size check, then declared-type allow-list check, then integrity check,
throwing the first applicable error. -/
def validateFile (maxFileSize : Nat) (f : SimFile) : Except FileError Unit :=
  if f.size > maxFileSize then
    .error .TooLarge
  else if !(SUPPORTED_IMAGE_TYPES ++ SUPPORTED_DOCUMENT_TYPES).contains f.mimeType then
    .error .UnsupportedType
  else if !validateFileIntegrity f then
    .error .CorruptFile
  else
    .ok ()

/-- A backing resource locator.  `objectURL f` stands for the browser URL
minted by `URL.createObjectURL(file)`; `dataURL w h q` stands for the
string returned by `canvas.toDataURL` for a canvas of dimensions
`w × h` encoded as JPEG at quality `q`. -/
inductive Locator where
  | objectURL (f : SimFile)
  | dataURL (w h : ℚ) (q : ℚ)
  deriving Repr, DecidableEq

/-- The attachment kinds produced by the pipeline. -/
inductive AttachKind where
  | image
  | document
  deriving Repr, DecidableEq

/-- The `Attachment` record built by `processImage` / `processDocument`
(fields used by the pipeline; `id` is the generation-time clock value,
see `Dispatch` for its model). -/
structure Attachment where
  kind : AttachKind
  url : Locator
  thumbnailUrl : Option Locator
  name : String
  size : Nat
  mimeType : String
  deriving Repr, DecidableEq

/-- The thumbnail dimension computation of `createImageThumbnail`
(`MAX_SIZE = 200`): the longer edge is scaled down to 200 when it
exceeds 200, the other edge is scaled by the same factor. -/
def thumbDims (w h : ℚ) : ℚ × ℚ :=
  if w > h then
    if w > 200 then (200, h * (200 / w)) else (w, h)
  else
    if h > 200 then (w * (200 / h), 200) else (w, h)

/-- `createImageThumbnail` on an image that decodes to dimensions
`w × h`: draw onto a canvas of the computed thumbnail dimensions and
encode it with `canvas.toDataURL('image/jpeg', 0.7)`. -/
def createImageThumbnail (w h : ℚ) : Locator :=
  .dataURL (thumbDims w h).1 (thumbDims w h).2 (7 / 10)

/-- `processImage` on a file whose image content decodes to dimensions
`w × h`: an object URL for the original plus a thumbnail data URL. -/
def processImage (f : SimFile) (w h : ℚ) : Attachment :=
  { kind := .image
    url := .objectURL f
    thumbnailUrl := some (createImageThumbnail w h)
    name := f.name
    size := f.size
    mimeType := f.mimeType }

/-- `processDocument`: an object URL for the original, no thumbnail. -/
def processDocument (f : SimFile) : Attachment :=
  { kind := .document
    url := .objectURL f
    thumbnailUrl := none
    name := f.name
    size := f.size
    mimeType := f.mimeType }

/-- `processFile`: validate, then dispatch on the declared type.  For an
image file, `w h` are the dimensions its content decodes to. -/
def processFile (maxFileSize : Nat) (f : SimFile) (w h : ℚ) :
    Except FileError Attachment :=
  match validateFile maxFileSize f with
  | .error e => .error e
  | .ok () =>
    if SUPPORTED_IMAGE_TYPES.contains f.mimeType then
      .ok (processImage f w h)
    else if SUPPORTED_DOCUMENT_TYPES.contains f.mimeType then
      .ok (processDocument f)
    else
      .error .UnsupportedType

/-- A concrete probe file: PDF magic bytes declared as `image/png`. -/
def pdfBytesPngFile : SimFile :=
  { name := "doc.png", mimeType := "image/png", bytes := [0x25, 0x50, 0x44, 0x46] }

/-- A concrete probe file: a genuine WebP header (RIFF container with the
`WEBP` fourcc) declared as `image/webp`. -/
def riffWebpFile : SimFile :=
  { name := "img.webp", mimeType := "image/webp"
    bytes := [0x52, 0x49, 0x46, 0x46, 0x00, 0x00, 0x00, 0x00, 0x57, 0x45, 0x42, 0x50] }

/-- A concrete probe file: JPEG magic bytes declared as `image/jpeg`. -/
def smallJpegFile : SimFile :=
  { name := "pic.jpg", mimeType := "image/jpeg", bytes := [0xFF, 0xD8, 0xFF, 0xE0] }

end FileH

namespace Dispatch

/-! The message dispatch queue of `chat.ts`.

`sendMessage` validates the content length, pushes a closure onto
`messageQueue` and, when no closure is executing, starts `processQueue`,
which runs the queued closures strictly one after the other (each one is
awaited before the next is dequeued).  A closure appends the user
message, invokes the model backend, and on completion appends the
assistant message (or surfaces an error) and clears the loading flag.

The embedding is an event-driven state machine.  JavaScript runs the
code single-threaded; the only suspension point inside a queued closure
at which foreign code can observe or mutate the shared state is the
`await` of the backend call.  Hence a trace is a list of events:
`submit` (a call to `sendMessage`, with the clock reading at that
moment) and `complete` (the pending backend call settles, successfully
or not).  A `complete` event both finishes the running closure and, via
the recursive `processQueue`, immediately starts the next queued one.

The Redux reducers `addMessage`, `setLoading`, `setError` and
`addNotification` are imported by `chat.ts` but their module is not part
of the sources.  Modelled from the spec: `addMessage` appends to the
current Chat's message list (§3: "ordered sequence of Messages
(append-only during a session)"), `setLoading` / `setError` set the
shared loading flag / last-error field, and `addNotification` appends a
`{type, message}` record to the process-wide notification list (§6). -/

/-- Message roles. -/
inductive Role where
  | user
  | assistant
  deriving Repr, DecidableEq

/-- Assistant-message metadata: whether web search was requested and the
source URLs used. -/
structure MsgMeta where
  webSearch : Bool
  sources : List String
  deriving Repr, DecidableEq

/-- A chat `Message`.  `id` models `Date.now().toString()` and
`timestamp` models `new Date().toISOString()`; both are derived from the
millisecond clock reading at creation, kept here as the `Nat` it stems
from (both derivations are injective functions of that reading). -/
structure Msg where
  id : Nat
  content : String
  role : Role
  timestamp : Nat
  metadata : Option MsgMeta
  deriving Repr, DecidableEq

/-- A message together with the index of the accepted submission that
produced it (a ghost annotation used only to state ordering). -/
structure TMsg where
  msg : Msg
  srcIdx : Nat
  deriving Repr, DecidableEq

/-- A notification record (`addNotification` payload). -/
structure Notif where
  ntype : String
  message : String
  deriving Repr, DecidableEq

/-- One accepted submission waiting in (or taken from) `messageQueue`:
its ghost submission index, content, and the `webSearch` option. -/
structure Req where
  idx : Nat
  content : String
  webSearch : Bool
  deriving Repr, DecidableEq

/-- The shared state visible to the dispatch queue: the pending queue,
the closure currently executing (between its start and the settlement of
its backend call), the current Chat's message list, the notification
list, the shared error field and loading flag, plus two ghost counters:
`submitted` (number of accepted submissions) and `modelCalls` (number of
`bedrockService.processMessage` invocations). -/
structure DState where
  queue : List Req
  running : Option Req
  messages : List TMsg
  notifications : List Notif
  error : Option String
  isLoading : Bool
  submitted : Nat
  modelCalls : Nat
  deriving Repr, DecidableEq

/-- The initial state: everything empty and idle. -/
def initState : DState :=
  { queue := [], running := none, messages := [], notifications := []
    error := none, isLoading := false, submitted := 0, modelCalls := 0 }

/-- `showError`: set the shared error field and append an error
notification. -/
def showError (m : String) (s : DState) : DState :=
  { s with error := some m
           notifications := s.notifications ++ [{ ntype := "error", message := m }] }

/-- The user message a closure appends when it starts running, stamped
with the clock reading `t`. -/
def userMsg (r : Req) (t : Nat) : TMsg :=
  { msg := { id := t, content := r.content, role := .user, timestamp := t
             metadata := none }
    srcIdx := r.idx }

/-- The assistant message appended on a successful backend response.
`performWebSearch` is a stub returning `[]`, so `sources` is empty. -/
def asstMsg (r : Req) (completion : String) (t : Nat) : TMsg :=
  { msg := { id := t, content := completion, role := .assistant, timestamp := t
             metadata := some { webSearch := r.webSearch, sources := [] } }
    srcIdx := r.idx }

/-- `processQueue`: if the queue is empty, go idle; otherwise shift the
head closure and start executing it.  Starting a closure synchronously
appends its user message, sets the loading flag and issues the backend
call (the closure then suspends at the `await`). -/
def startNext (t : Nat) (s : DState) : DState :=
  match s.queue with
  | [] => { s with running := none }
  | r :: rest =>
    { s with queue := rest, running := some r
             messages := s.messages ++ [userMsg r t]
             isLoading := true
             modelCalls := s.modelCalls + 1 }

/-- The tail of a running closure once its backend call settles with
result `res` at clock reading `t`: on success append the assistant
message; on failure run the `catch` block (`showError`); in both cases
the `finally` block clears the loading flag. -/
def settleUnit (r : Req) (res : Except Unit String) (t : Nat) (s : DState) : DState :=
  match res with
  | .ok completion =>
    { s with messages := s.messages ++ [asstMsg r completion t], isLoading := false }
  | .error () =>
    { showError "Error al procesar el mensaje" s with isLoading := false }

/-- An observable event: a call to `sendMessage` (with the `webSearch`
option and the clock reading), or the settlement of the pending backend
call. -/
inductive Event where
  | submit (content : String) (webSearch : Bool) (time : Nat)
  | complete (result : Except Unit String) (time : Nat)
  deriving Repr

/-- One event step, parameterised by the configured maximum message
length (`VITE_MESSAGE_MAX_LENGTH`).  `submit` validates, enqueues and —
when no closure is executing — starts processing; `complete` finishes
the running closure and immediately continues with the next. -/
def step (maxLen : Nat) (s : DState) : Event → DState
  | .submit c ws t =>
    if c.length > maxLen then
      showError "El mensaje excede la longitud máxima permitida" s
    else
      let s' := { s with queue := s.queue ++ [{ idx := s.submitted, content := c, webSearch := ws }]
                         submitted := s.submitted + 1 }
      if s'.running.isNone then startNext t s' else s'
  | .complete res t =>
    match s.running with
    | none => s
    | some r => startNext t { settleUnit r res t s with running := none }

/-- Run a trace of events from the initial state. -/
def run (maxLen : Nat) (events : List Event) : DState :=
  events.foldl (step maxLen) initState

/-- The submission indices of the user-role messages, in list order. -/
def userIdxs (ms : List TMsg) : List Nat :=
  ms.filterMap fun m => if m.msg.role = .user then some m.srcIdx else none

/-- The submission indices of the assistant-role messages, in list order. -/
def asstIdxs (ms : List TMsg) : List Nat :=
  ms.filterMap fun m => if m.msg.role = .assistant then some m.srcIdx else none

/-- The number of submissions whose closure has started (each start appends
exactly one user-role message). -/
def nStarted (s : DState) : Nat := (userIdxs s.messages).length

/-- The strict upper bound on the submission indices that can already carry
an assistant reply: the running closure's index, or, when idle, the number
of started submissions. -/
def bound (s : DState) : Nat :=
  match s.running with
  | some r => r.idx
  | none => nStarted s

/-- The inductive invariant of the dispatch queue: user messages appear in
submission order (`0, 1, 2, …`), the pending queue holds the next
contiguous indices, the queue is empty whenever the service is idle,
assistant replies form a subsequence of `0 … bound-1` in increasing order,
and the running closure is always the most recently started submission. -/
def Inv (s : DState) : Prop :=
  userIdxs s.messages = List.range (nStarted s) ∧
  s.submitted = nStarted s + s.queue.length ∧
  s.queue.map Req.idx = List.range' (nStarted s) s.queue.length ∧
  (s.running = none → s.queue = []) ∧
  List.Sublist (asstIdxs s.messages) (List.range (bound s)) ∧
  (∀ r, s.running = some r → r.idx + 1 = nStarted s)

/-- A concrete mid-flight state: one accepted submission whose backend call
is pending. -/
def busyState : DState :=
  { queue := [], running := some { idx := 0, content := "hola", webSearch := false }
    messages := [userMsg { idx := 0, content := "hola", webSearch := false } 1]
    notifications := [], error := none, isLoading := true
    submitted := 1, modelCalls := 1 }

end Dispatch

namespace WSearch

/-! The web-search service of `webSearch.ts`: a per-query result cache
with a one-hour lifetime in front of a single search collaborator.

The JavaScript `Map` is insertion-ordered; it is modelled as an
association list where `set` updates an existing key in place and
appends an unknown one, matching `Map.prototype.set`.  The network fetch
performed by `searchDuckDuckGo` is abstracted as the value it produces
(the `fetched` argument of `search`); one execution of the miss branch
performs exactly one such call, which `search` reports in its third
component.  Relevance scores are computed on `ℚ`, on which every
operation the source performs is exact. -/

/-- A search result record. -/
structure WebSearchResult where
  title : String
  snippet : String
  url : String
  source : String
  deriving Repr, DecidableEq

/-- `CACHE_DURATION = 1000 * 60 * 60` (one hour in milliseconds). -/
def CACHE_DURATION : Nat := 1000 * 60 * 60

/-- `MAX_RESULTS = 5`. -/
def MAX_RESULTS : Nat := 5

/-- One cache entry: the stored results and the write-time clock reading. -/
structure CacheEntry where
  results : List WebSearchResult
  timestamp : Nat
  deriving Repr, DecidableEq

/-- The insertion-ordered cache `Map`. -/
abbrev Cache := List (String × CacheEntry)

/-- `Map.prototype.get`. -/
def lookup (q : String) : Cache → Option CacheEntry
  | [] => none
  | (k, e) :: rest => if k == q then some e else lookup q rest

/-- `Map.prototype.delete`. -/
def eraseEntry (q : String) : Cache → Cache
  | [] => []
  | (k, e) :: rest => if k == q then rest else (k, e) :: eraseEntry q rest

/-- `Map.prototype.set`: update in place if the key exists, else append. -/
def setEntry (q : String) (e : CacheEntry) : Cache → Cache
  | [] => [(q, e)]
  | (k, e') :: rest =>
    if k == q then (q, e) :: rest else (k, e') :: setEntry q e rest

/-- `cleanCache`: delete every entry older than `CACHE_DURATION`. -/
def cleanCache (now : Nat) (c : Cache) : Cache :=
  c.filter fun p => !(now - p.2.timestamp > CACHE_DURATION)

/-- `getCachedResults`: a fresh entry is returned as a hit; an expired
entry is deleted and reported as a miss.  Returns the lookup result and
the (possibly reduced) cache. -/
def getCachedResults (now : Nat) (q : String) (c : Cache) :
    Option (List WebSearchResult) × Cache :=
  match lookup q c with
  | none => (none, c)
  | some e =>
    if now - e.timestamp > CACHE_DURATION then (none, eraseEntry q c)
    else (some e.results, c)

/-- `cacheResults`: store the results under the query stamped with the
current time, then opportunistically purge expired entries. -/
def cacheResults (now : Nat) (q : String) (rs : List WebSearchResult) (c : Cache) : Cache :=
  cleanCache now (setEntry q { results := rs, timestamp := now } c)

/-- Character-list test used below: does the text start with the pattern? -/
def startsWithChars : List Char → List Char → Bool
  | [], _ => true
  | _ :: _, [] => false
  | p :: ps, c :: cs => p == c && startsWithChars ps cs

/-- Character-list substring test used below. -/
def containsChars (pat : List Char) : List Char → Bool
  | [] => startsWithChars pat []
  | c :: cs => startsWithChars pat (c :: cs) || containsChars pat cs

/-- `calculateRelevanceScore`: snippet length (capped), a well-formed
URL bonus, and a `.edu` / `.gov` domain bonus. -/
def calculateRelevanceScore (r : WebSearchResult) : ℚ :=
  min ((r.snippet.length : ℚ) / 100) 5
    + (if r.url ≠ "" && startsWithChars "http".data r.url.data then 2 else 0)
    + (if containsChars ".edu".data r.url.data || containsChars ".gov".data r.url.data
       then 3 else 0)

/-- De-duplication by URL via `new Map(results.map(r => [r.url, r]))`:
a later result with the same URL replaces the value but keeps the first
occurrence's position. -/
def dedupByUrl (rs : List WebSearchResult) : List WebSearchResult :=
  (rs.foldl (fun acc r =>
      acc.map (fun p => if p.1 == r.url then (p.1, r) else p)
        ++ (if acc.any (fun p => p.1 == r.url) then [] else [(r.url, r)]))
    ([] : List (String × WebSearchResult))).map Prod.snd

/-- Stable insertion into a list sorted by descending relevance score;
an element with a score equal to the inserted one keeps precedence, as
under the stable JavaScript `sort` with comparator `scoreB - scoreA`. -/
def insertByScore (x : WebSearchResult) : List WebSearchResult → List WebSearchResult
  | [] => [x]
  | y :: ys =>
    if calculateRelevanceScore x ≥ calculateRelevanceScore y then x :: y :: ys
    else y :: insertByScore x ys

/-- Stable sort by descending relevance score. -/
def sortByScore : List WebSearchResult → List WebSearchResult
  | [] => []
  | x :: xs => insertByScore x (sortByScore xs)

/-- `processResults`: de-duplicate by URL, sort by descending relevance,
cap at `MAX_RESULTS`. -/
def processResults (rs : List WebSearchResult) : List WebSearchResult :=
  (sortByScore (dedupByUrl rs)).take MAX_RESULTS

/-- `search`: consult the cache first; on a hit return the cached list
with no collaborator call, otherwise perform one collaborator call
(whose processed outcome is abstracted by `fetched`), cache it and
return it.  The third component counts the collaborator calls made. -/
def search (now : Nat) (q : String) (fetched : List WebSearchResult) (c : Cache) :
    List WebSearchResult × Cache × Nat :=
  match getCachedResults now q c with
  | (some rs, c') => (rs, c', 0)
  | (none, c') =>
    let combined := processResults fetched
    (combined, cacheResults now q combined c', 1)

end WSearch

namespace FileH

/-- Claim C4: `validateFile` checks in a fixed order with short-circuiting —
a file over the size limit fails with `TooLarge` whatever its type and
content; a file within the limit whose declared type is outside the
allow-list fails with `UnsupportedType` whatever its content; only a file
passing both earlier checks can fail the content-signature check with
`CorruptFile`; each outcome is characterised exactly. -/
theorem validateFile_check_order (maxFileSize : Nat) (f : SimFile) :
    (validateFile maxFileSize f = .error .TooLarge ↔ maxFileSize < f.size) ∧
    (validateFile maxFileSize f = .error .UnsupportedType ↔
      f.size ≤ maxFileSize ∧
      (SUPPORTED_IMAGE_TYPES ++ SUPPORTED_DOCUMENT_TYPES).contains f.mimeType = false) ∧
    (validateFile maxFileSize f = .error .CorruptFile ↔
      f.size ≤ maxFileSize ∧
      (SUPPORTED_IMAGE_TYPES ++ SUPPORTED_DOCUMENT_TYPES).contains f.mimeType = true ∧
      validateFileIntegrity f = false) ∧
    (validateFile maxFileSize f = .ok () ↔
      f.size ≤ maxFileSize ∧
      (SUPPORTED_IMAGE_TYPES ++ SUPPORTED_DOCUMENT_TYPES).contains f.mimeType = true ∧
      validateFileIntegrity f = true) := by
  unfold validateFile
  split_ifs with h1 h2 h3 <;> simp_all <;>
    rcases Decidable.em (f.mimeType ∈ SUPPORTED_IMAGE_TYPES) with hmem | hmem <;>
    simp_all

end FileH

namespace FileH

/-- Claim C5, counterexample: a file within the size limit whose bytes are
the PDF signature but whose declared type is `image/png` is rejected with
`CorruptFile`, not `UnsupportedType` as the claim states (`image/png` is
on the allow-list, so the declared-type check passes). -/
theorem pdf_as_png_not_unsupported :
    validateFile 1000 pdfBytesPngFile = .error .CorruptFile ∧
    FileError.CorruptFile ≠ FileError.UnsupportedType :=
  ⟨rfl, by decide⟩

/-- A buffer that begins with the PDF signature matches none of the
image signatures (they disagree on the first byte). -/
theorem pdf_sig_no_image_sig (bytes : List Nat)
    (h : signatureMatches [0x25, 0x50, 0x44, 0x46] bytes = true) :
    validateImageSignature bytes = false := by
  cases bytes with
  | nil => simp [signatureMatches] at h
  | cons b bs =>
    simp [signatureMatches] at h
    obtain ⟨hb, -⟩ := h
    subst hb
    simp [validateImageSignature, signatureMatches]

/-- Claim C5, amended: for every file within the size limit whose bytes
begin with `25 50 44 46` and whose declared type is `image/png`,
ingestion fails with `CorruptFile` (the allow-list check passes and the
signature check then fails). -/
theorem pdf_as_png_corrupt (maxFileSize : Nat) (f : SimFile)
    (hmt : f.mimeType = "image/png")
    (hsig : signatureMatches [0x25, 0x50, 0x44, 0x46] f.bytes = true)
    (hsz : f.size ≤ maxFileSize) :
    validateFile maxFileSize f = .error .CorruptFile := by
  have hint : validateFileIntegrity f = false := by
    rw [validateFileIntegrity]
    rw [hmt]
    simp [SUPPORTED_IMAGE_TYPES, pdf_sig_no_image_sig f.bytes hsig]
  rw [validateFile]
  rw [hmt] at *
  simp [SUPPORTED_IMAGE_TYPES, SUPPORTED_DOCUMENT_TYPES, hint, Nat.not_lt.mpr hsz]

/-- Witness for the amended claim C5 at a concrete file. -/
theorem pdf_as_png_corrupt_witness :
    validateFile 1000 pdfBytesPngFile = .error .CorruptFile :=
  pdf_as_png_corrupt 1000 pdfBytesPngFile rfl (by decide) (by decide)

/-- Claim C6: for a `text/plain` file that passes the size check, the
content check requires exactly non-emptiness — ingestion succeeds iff the
buffer is non-empty, and a zero-length buffer fails with `CorruptFile`. -/
theorem textplain_content_check (maxFileSize : Nat) (f : SimFile)
    (hmt : f.mimeType = "text/plain") (hsz : f.size ≤ maxFileSize) :
    validateFileIntegrity f = decide (0 < f.bytes.length) ∧
    (validateFile maxFileSize f = .ok () ↔ 0 < f.bytes.length) ∧
    (validateFile maxFileSize f = .error .CorruptFile ↔ f.bytes.length = 0) := by
  have hint : validateFileIntegrity f = decide (0 < f.bytes.length) := by
    rw [validateFileIntegrity, hmt]
    simp [SUPPORTED_IMAGE_TYPES]
  refine ⟨hint, ?_, ?_⟩ <;>
    rw [validateFile, hmt] <;>
    simp [SUPPORTED_IMAGE_TYPES, SUPPORTED_DOCUMENT_TYPES, hint, Nat.not_lt.mpr hsz,
          List.length_pos, List.length_eq_zero]

/-- Witness for claim C6 at a concrete one-byte `text/plain` file. -/
theorem textplain_content_check_witness :
    validateFileIntegrity { name := "n.txt", mimeType := "text/plain", bytes := [65] } =
      decide (0 < ([65] : List Nat).length) ∧
    (validateFile 10 { name := "n.txt", mimeType := "text/plain", bytes := [65] } = .ok () ↔
      0 < ([65] : List Nat).length) ∧
    (validateFile 10 { name := "n.txt", mimeType := "text/plain", bytes := [65] } =
        .error .CorruptFile ↔ ([65] : List Nat).length = 0) :=
  textplain_content_check 10 _ rfl (by decide)

end FileH

namespace FileH

/-- Claim C7, code evaluation at the failing input: a non-empty file with
a genuine WebP (RIFF) header declared `image/webp`, well within the size
limit, is rejected with `CorruptFile` — `validateImageSignature` knows no
WebP signature, so the content check cannot pass, contradicting both the
allow-listing of `image/webp` and the contract that signature-less types
need only be non-empty. -/
theorem webp_riff_rejected :
    0 < riffWebpFile.size ∧ riffWebpFile.size ≤ 100 ∧
    validateFile 100 riffWebpFile = .error .CorruptFile :=
  ⟨by decide, by decide, rfl⟩

/-- The thumbnail dimensions: when the source's longer edge exceeds 200,
the thumbnail's longer edge is exactly 200, and the aspect ratio is
preserved (`w' * h = h' * w`). -/
theorem thumb_longer_edge (w h : ℚ) (hw : 0 < w) (hh : 0 < h) :
    (200 < max w h → max (thumbDims w h).1 (thumbDims w h).2 = 200) ∧
    (thumbDims w h).1 * h = (thumbDims w h).2 * w := by
  unfold thumbDims
  split_ifs with h1 h2 h3
  · constructor
    · intro hm
      have : h * (200 / w) ≤ 200 := by
        rw [← mul_div_assoc, div_le_iff₀ hw]
        nlinarith
      simp [max_eq_left this]
    · field_simp
      ring
  · constructor
    · intro hm
      rw [max_eq_left h1.le] at hm
      exact absurd hm (by simpa using h2)
    · ring
  · constructor
    · intro hm
      have : w * (200 / h) ≤ 200 := by
        rw [← mul_div_assoc, div_le_iff₀ hh]
        nlinarith [not_lt.mp h1]
      simp [max_eq_right this]
    · field_simp
      ring
  · constructor
    · intro hm
      rw [max_eq_right (not_lt.mp h1)] at hm
      exact absurd hm (by simpa using h3)
    · ring

/-- Claim C8: every file within the size limit whose bytes begin with
`FF D8 FF` and whose declared type is `image/jpeg` is ingested
successfully into an image Attachment carrying the original object URL
and a thumbnail data URL whose dimensions scale the longer edge to 200
(when the source exceeds 200) while preserving the aspect ratio. -/
theorem jpeg_ingestion (maxFileSize : Nat) (f : SimFile) (w h : ℚ)
    (hmt : f.mimeType = "image/jpeg")
    (hsig : signatureMatches [0xFF, 0xD8, 0xFF] f.bytes = true)
    (hsz : f.size ≤ maxFileSize) (hw : 0 < w) (hh : 0 < h) :
    processFile maxFileSize f w h = .ok (processImage f w h) ∧
    (processImage f w h).kind = .image ∧
    (processImage f w h).url = .objectURL f ∧
    (processImage f w h).thumbnailUrl =
      some (.dataURL (thumbDims w h).1 (thumbDims w h).2 (7 / 10)) ∧
    (200 < max w h → max (thumbDims w h).1 (thumbDims w h).2 = 200) ∧
    (thumbDims w h).1 * h = (thumbDims w h).2 * w := by
  have hint : validateFileIntegrity f = true := by
    rw [validateFileIntegrity, hmt]
    simp [SUPPORTED_IMAGE_TYPES, validateImageSignature, hsig]
  have hval : validateFile maxFileSize f = .ok () := by
    rw [validateFile, hmt]
    simp [SUPPORTED_IMAGE_TYPES, SUPPORTED_DOCUMENT_TYPES, hint, Nat.not_lt.mpr hsz, hmt]
  refine ⟨?_, rfl, rfl, ?_, thumb_longer_edge w h hw hh⟩
  · rw [processFile, hval, hmt]
    simp [SUPPORTED_IMAGE_TYPES]
  · simp [processImage, createImageThumbnail]

end FileH

namespace FileH

/-- Witness for claim C8 at a concrete 400 × 300 JPEG file. -/
theorem jpeg_ingestion_witness :
    processFile 100 smallJpegFile 400 300 = .ok (processImage smallJpegFile 400 300) ∧
    (processImage smallJpegFile 400 300).kind = .image ∧
    (processImage smallJpegFile 400 300).url = .objectURL smallJpegFile ∧
    (processImage smallJpegFile 400 300).thumbnailUrl =
      some (.dataURL (thumbDims 400 300).1 (thumbDims 400 300).2 (7 / 10)) ∧
    (200 < max (400 : ℚ) 300 → max (thumbDims 400 300).1 (thumbDims 400 300).2 = 200) ∧
    (thumbDims 400 300).1 * 300 = (thumbDims 400 300).2 * 400 :=
  jpeg_ingestion 100 smallJpegFile 400 300 rfl (by decide) (by decide)
    (by norm_num) (by norm_num)

end FileH

namespace WSearch

/-- `Map.set` followed by `Map.get` of the same key yields the new entry. -/
theorem lookup_setEntry_self (q : String) (e : CacheEntry) (c : Cache) :
    lookup q (setEntry q e c) = some e := by
  induction c with
  | nil => simp [setEntry, lookup]
  | cons p rest ih =>
    by_cases hk : p.1 == q
    · simp [setEntry, hk, lookup]
    · simp [setEntry, hk, lookup, ih]

/-- `Map.set` leaves the entries of every other key untouched. -/
theorem mem_setEntry_of_ne (q q' : String) (e : CacheEntry) (e' : CacheEntry)
    (c : Cache) (hne : q' ≠ q) :
    ((q', e') ∈ setEntry q e c ↔ (q', e') ∈ c) := by
  induction c with
  | nil => simp [setEntry, hne]
  | cons p rest ih =>
    by_cases hk : p.1 == q
    · rcases p with ⟨k, e₀⟩
      simp at hk
      subst hk
      simp [setEntry]
      constructor
      · rintro (h | h)
        · exact absurd h.1 hne
        · exact Or.inr h
      · rintro (h | h)
        · exact absurd h.1 hne
        · exact Or.inr h
    · simp [setEntry, hk, ih]

/-- A filtered map still resolves a key to its entry when that entry
satisfies the filter (entries before it are either kept or removed, never
reordered). -/
theorem lookup_filter_of_kept (q : String) (e : CacheEntry) (c : Cache)
    (p : String × CacheEntry → Bool)
    (hq : lookup q c = some e) (hp : p (q, e) = true) :
    lookup q (c.filter p) = some e := by
  induction c with
  | nil => simp [lookup] at hq
  | cons pr rest ih =>
    by_cases hk : pr.1 == q
    · rcases pr with ⟨k, e₀⟩
      simp at hk
      subst hk
      simp [lookup] at hq
      subst hq
      simp [List.filter, hp, lookup]
    · simp [lookup, hk] at hq
      by_cases hpr : p pr
      · simp [List.filter, hpr, lookup, hk, ih hq]
      · simp [List.filter, hpr, ih hq]

/-- Claim C9: a `search` that finds a cache entry written within the last
hour returns exactly the cached list, changes nothing, and performs no
collaborator call; a `search` that finds an expired entry deletes it,
performs exactly one collaborator call and re-caches its processed
result under the current time; and every cache write purges every other
expired entry while keeping every fresh one. -/
theorem search_cache_semantics (now : Nat) (q : String)
    (fetched : List WebSearchResult) (c : Cache) (e : CacheEntry)
    (hq : lookup q c = some e) :
    (now - e.timestamp ≤ CACHE_DURATION → search now q fetched c = (e.results, c, 0)) ∧
    (CACHE_DURATION < now - e.timestamp →
      (search now q fetched c).2.2 = 1 ∧
      (search now q fetched c).1 = processResults fetched ∧
      (search now q fetched c).2.1 =
        cacheResults now q (processResults fetched) (eraseEntry q c) ∧
      lookup q (search now q fetched c).2.1 =
        some { results := processResults fetched, timestamp := now }) ∧
    (∀ q' e' c', q' ≠ q →
      ((q', e') ∈ cacheResults now q (processResults fetched) c' ↔
        (q', e') ∈ c' ∧ now - e'.timestamp ≤ CACHE_DURATION)) := by
  refine ⟨?_, ?_, ?_⟩
  · intro hfresh
    simp [search, getCachedResults, hq, Nat.not_lt.mpr hfresh]
  · intro hexp
    have hmiss : getCachedResults now q c = (none, eraseEntry q c) := by
      simp [getCachedResults, hq, hexp]
    refine ⟨?_, ?_, ?_, ?_⟩ <;>
      simp [search, hmiss, cacheResults]
    exact lookup_filter_of_kept q _ _ _ (lookup_setEntry_self q _ _) (by simp)
  · intro q' e' c' hne
    simp [cacheResults, cleanCache, List.mem_filter,
          mem_setEntry_of_ne q q' _ e' c' hne]

end WSearch

namespace Dispatch

/-- `userIdxs` distributes over list append. -/
@[simp] theorem userIdxs_append (ms ns : List TMsg) :
    userIdxs (ms ++ ns) = userIdxs ms ++ userIdxs ns :=
  List.filterMap_append ms ns _

/-- `asstIdxs` distributes over list append. -/
@[simp] theorem asstIdxs_append (ms ns : List TMsg) :
    asstIdxs (ms ++ ns) = asstIdxs ms ++ asstIdxs ns :=
  List.filterMap_append ms ns _

/-- The user message a starting closure appends contributes its
submission index. -/
@[simp] theorem userIdxs_userMsg (r : Req) (t : Nat) :
    userIdxs [userMsg r t] = [r.idx] := rfl

/-- A user message contributes no assistant index. -/
@[simp] theorem asstIdxs_userMsg (r : Req) (t : Nat) :
    asstIdxs [userMsg r t] = [] := rfl

/-- An assistant message contributes no user index. -/
@[simp] theorem userIdxs_asstMsg (r : Req) (c : String) (t : Nat) :
    userIdxs [asstMsg r c t] = [] := rfl

/-- The assistant message a settling closure appends contributes its
submission index. -/
@[simp] theorem asstIdxs_asstMsg (r : Req) (c : String) (t : Nat) :
    asstIdxs [asstMsg r c t] = [r.idx] := rfl

/-- The dispatch-queue invariant holds initially. -/
theorem inv_init : Inv initState := by
  refine ⟨rfl, rfl, rfl, fun _ => rfl, ?_, fun r hr => by simp [initState] at hr⟩
  simp [initState, asstIdxs, bound, nStarted, userIdxs]

end Dispatch

namespace Dispatch

/-- The dispatch-queue invariant is preserved by every event. -/
theorem inv_step (maxLen : Nat) (s : DState) (e : Event) (h : Inv s) :
    Inv (step maxLen s e) := by
  obtain ⟨h1, h2, h3, h4, h5, h6⟩ := h
  cases e with
  | submit c ws t =>
    by_cases hlen : c.length > maxLen
    · simp only [step, if_pos hlen]
      exact ⟨h1, h2, h3, h4, h5, h6⟩
    · cases hr : s.running with
      | none =>
        have hq : s.queue = [] := h4 hr
        have hsub : s.submitted = nStarted s := by simpa [hq] using h2
        have hb : bound s = nStarted s := by simp [bound, hr]
        simp only [step, if_neg hlen, hr, hq, List.nil_append, Option.isNone_none,
          if_true, startNext]
        refine ⟨?_, ?_, ?_, ?_, ?_, ?_⟩
        · simp only [nStarted, userIdxs_append, userIdxs_userMsg]
          rw [h1]
          simp [List.range_succ, hsub]
        · simp only [nStarted, userIdxs_append, userIdxs_userMsg]
          rw [h1]
          simp [hsub]
        · simp
        · intro hcon
          simp at hcon
        · simp only [bound, asstIdxs_append, asstIdxs_userMsg, List.append_nil]
          rw [hsub, ← hb]
          exact h5
        · intro r hr2
          simp only [Option.some.injEq] at hr2
          simp only [nStarted, userIdxs_append, userIdxs_userMsg, ← hr2]
          rw [h1]
          simp [hsub]
      | some r =>
        have hb : bound s = r.idx := by simp [bound, hr]
        simp only [step, if_neg hlen, hr]
        have hno : (Option.isNone (some r)) = false := rfl
        simp only [hno, Bool.false_eq_true, if_false]
        refine ⟨?_, ?_, ?_, ?_, ?_, ?_⟩
        · simp only [nStarted]
          rw [h1]
          simp
        · simp only [nStarted, List.length_append, List.length_cons, List.length_nil]
          rw [h2]
          rw [show ((userIdxs s.messages).length) = nStarted s from rfl]
          omega
        · simp only [nStarted, List.map_append, List.map_cons, List.map_nil, h3,
            List.length_append, List.length_cons, List.length_nil]
          rw [show ((userIdxs s.messages).length) = nStarted s from rfl]
          rw [h2]
          have hconc := @List.range'_concat 1 (nStarted s) s.queue.length
          simp only [Nat.one_mul] at hconc
          rw [show s.queue.length + (0 + 1) = s.queue.length + 1 by omega, hconc]
        · intro hcon
          simp at hcon
        · show List.Sublist (asstIdxs s.messages) (List.range r.idx)
          rw [← hb]
          exact h5
        · intro r2 hr2
          simp only [Option.some.injEq] at hr2
          rw [← hr2]
          show r.idx + 1 = nStarted s
          exact h6 r hr
  | complete res t =>
    cases hr : s.running with
    | none =>
      simp only [step, hr]
      exact ⟨h1, h2, h3, h4, h5, h6⟩
    | some r =>
      have hidx : r.idx + 1 = nStarted s := h6 r hr
      have hb5 : List.Sublist (asstIdxs s.messages) (List.range r.idx) := by
        rw [← show bound s = r.idx from by simp [bound, hr]]
        exact h5
      cases res with
      | ok comp =>
        cases hq : s.queue with
        | nil =>
          simp only [step, hr, settleUnit, startNext, hq]
          refine ⟨?_, ?_, ?_, ?_, ?_, ?_⟩
          · simp only [nStarted, userIdxs_append, userIdxs_asstMsg, List.append_nil]
            exact h1
          · simp only [nStarted, userIdxs_append, userIdxs_asstMsg, List.append_nil,
              List.length_nil]
            rw [show (userIdxs s.messages).length = nStarted s from rfl]
            rw [h2, hq]
            simp
          · simp
          · intro _
            rfl
          · simp only [bound, nStarted, userIdxs_append, userIdxs_asstMsg,
              asstIdxs_append, asstIdxs_asstMsg, List.append_nil]
            rw [show (userIdxs s.messages).length = nStarted s from rfl]
            rw [← hidx, List.range_succ]
            exact List.Sublist.append hb5 (List.Sublist.refl _)
          · intro r2 hr2
            simp at hr2
        | cons q rest =>
          have hq3 : q.idx = nStarted s ∧
              List.map Req.idx rest = List.range' (nStarted s + 1) rest.length := by
            rw [hq] at h3
            simp only [List.map_cons, List.length_cons] at h3
            have hrs := List.range'_succ (nStarted s) rest.length 1
            simp only [Nat.one_mul] at hrs
            rw [hrs] at h3
            exact ⟨List.head_eq_of_cons_eq h3, List.tail_eq_of_cons_eq h3⟩
          simp only [step, hr, settleUnit, startNext, hq]
          refine ⟨?_, ?_, ?_, ?_, ?_, ?_⟩
          · simp only [nStarted, userIdxs_append, userIdxs_asstMsg, userIdxs_userMsg,
              List.append_nil]
            rw [h1, hq3.1]
            simp [List.range_succ]
          · simp only [nStarted, userIdxs_append, userIdxs_asstMsg, userIdxs_userMsg,
              List.append_nil, List.length_append, List.length_cons, List.length_nil]
            rw [show (userIdxs s.messages).length = nStarted s from rfl]
            rw [h2, hq]
            simp only [List.length_cons]
            omega
          · simp only [nStarted, userIdxs_append, userIdxs_asstMsg, userIdxs_userMsg,
              List.append_nil, List.length_append, List.length_cons, List.length_nil]
            rw [show (userIdxs s.messages).length = nStarted s from rfl]
            rw [hq3.2]
          · intro hcon
            simp at hcon
          · simp only [bound, asstIdxs_append, asstIdxs_asstMsg, asstIdxs_userMsg,
              List.append_nil]
            rw [hq3.1, ← hidx, List.range_succ]
            exact List.Sublist.append hb5 (List.Sublist.refl _)
          · intro r2 hr2
            simp only [Option.some.injEq] at hr2
            rw [← hr2]
            simp only [nStarted, userIdxs_append, userIdxs_asstMsg, userIdxs_userMsg,
              List.append_nil, List.length_append, List.length_cons, List.length_nil]
            rw [show (userIdxs s.messages).length = nStarted s from rfl]
            rw [hq3.1]
      | error u =>
        cases u
        cases hq : s.queue with
        | nil =>
          simp only [step, hr, settleUnit, showError, startNext, hq]
          refine ⟨h1, ?_, ?_, ?_, ?_, ?_⟩
          · show s.submitted = nStarted s + ([] : List Req).length
            rw [h2, hq]
          · show List.map Req.idx ([] : List Req) = List.range' (nStarted s) ([] : List Req).length
            simp
          · intro _
            rfl
          · show List.Sublist (asstIdxs s.messages) (List.range (nStarted s))
            rw [← hidx]
            exact List.Sublist.trans hb5 (List.range_sublist.mpr (Nat.le_succ _))
          · intro r2 hr2
            simp at hr2
        | cons q rest =>
          have hq3 : q.idx = nStarted s ∧
              List.map Req.idx rest = List.range' (nStarted s + 1) rest.length := by
            rw [hq] at h3
            simp only [List.map_cons, List.length_cons] at h3
            have hrs := List.range'_succ (nStarted s) rest.length 1
            simp only [Nat.one_mul] at hrs
            rw [hrs] at h3
            exact ⟨List.head_eq_of_cons_eq h3, List.tail_eq_of_cons_eq h3⟩
          simp only [step, hr, settleUnit, showError, startNext, hq]
          refine ⟨?_, ?_, ?_, ?_, ?_, ?_⟩
          · simp only [nStarted, userIdxs_append, userIdxs_userMsg]
            rw [h1, hq3.1]
            simp [List.range_succ]
          · simp only [nStarted, userIdxs_append, userIdxs_userMsg, List.length_append,
              List.length_cons, List.length_nil]
            rw [show (userIdxs s.messages).length = nStarted s from rfl]
            rw [h2, hq]
            simp only [List.length_cons]
            omega
          · simp only [nStarted, userIdxs_append, userIdxs_userMsg, List.length_append,
              List.length_cons, List.length_nil]
            rw [show (userIdxs s.messages).length = nStarted s from rfl]
            rw [hq3.2]
          · intro hcon
            simp at hcon
          · simp only [bound, asstIdxs_append, asstIdxs_userMsg, List.append_nil]
            rw [hq3.1, ← hidx]
            exact List.Sublist.trans hb5 (List.range_sublist.mpr (Nat.le_succ _))
          · intro r2 hr2
            simp only [Option.some.injEq] at hr2
            rw [← hr2]
            simp only [nStarted, userIdxs_append, userIdxs_userMsg, List.length_append,
              List.length_cons, List.length_nil]
            rw [show (userIdxs s.messages).length = nStarted s from rfl]
            rw [hq3.1]

end Dispatch

namespace Dispatch

/-- The dispatch-queue invariant is preserved by every event sequence. -/
theorem inv_foldl (maxLen : Nat) :
    ∀ (evs : List Event) (s : DState), Inv s → Inv (evs.foldl (step maxLen) s)
  | [], _, h => h
  | e :: evs, s, h => inv_foldl maxLen evs _ (inv_step maxLen s e h)

/-- Every reachable state of the dispatch queue satisfies the invariant. -/
theorem inv_run (maxLen : Nat) (events : List Event) : Inv (run maxLen events) :=
  inv_foldl maxLen events initState inv_init

/-- Claim C1: over every trace of accepted submissions and backend
completions — any interleaving of latencies — the user messages appear in
the Chat's list in exact submission order (`0, 1, 2, …`), and the
assistant replies form a subsequence of that order: they are appended in
the same relative order as their triggering user messages, never
interleaved, never reordered. -/
theorem dispatch_fifo_order (maxLen : Nat) (events : List Event) :
    userIdxs (run maxLen events).messages
      = List.range (userIdxs (run maxLen events).messages).length ∧
    List.Sublist (asstIdxs (run maxLen events).messages)
      (userIdxs (run maxLen events).messages) := by
  obtain ⟨h1, h2, h3, h4, h5, h6⟩ := inv_run maxLen events
  refine ⟨h1, ?_⟩
  rw [h1]
  refine h5.trans (List.range_sublist.mpr ?_)
  cases hr : (run maxLen events).running with
  | none => simp [bound, hr, nStarted]
  | some r =>
    have := h6 r hr
    simp only [bound, hr]
    omega

/-- Claim C2: a `sendMessage` whose content exceeds the configured
maximum length only sets the shared error field and appends an error
notification — the queue, the message list, the accepted-submission
count and the model-call count are all unchanged, so nothing is enqueued
and the model collaborator is never invoked for that submission. -/
theorem submit_overlong_rejected (maxLen : Nat) (s : DState) (c : String)
    (ws : Bool) (t : Nat) (h : maxLen < c.length) :
    step maxLen s (.submit c ws t) =
      { s with
        error := some "El mensaje excede la longitud máxima permitida"
        notifications := s.notifications ++
          [{ ntype := "error", message := "El mensaje excede la longitud máxima permitida" }] } ∧
    (step maxLen s (.submit c ws t)).messages = s.messages ∧
    (step maxLen s (.submit c ws t)).queue = s.queue ∧
    (step maxLen s (.submit c ws t)).submitted = s.submitted ∧
    (step maxLen s (.submit c ws t)).modelCalls = s.modelCalls := by
  have hc : c.length > maxLen := h
  refine ⟨?_, ?_, ?_, ?_, ?_⟩ <;> simp [step, hc, showError]

/-- Witness for claim C2 at a concrete over-long submission. -/
theorem submit_overlong_rejected_witness :
    (step 3 initState (.submit "abcd" false 0)).messages = initState.messages ∧
    (step 3 initState (.submit "abcd" false 0)).modelCalls = initState.modelCalls :=
  ⟨(submit_overlong_rejected 3 initState "abcd" false 0 (by decide)).2.1,
   (submit_overlong_rejected 3 initState "abcd" false 0 (by decide)).2.2.2.2⟩

end Dispatch

namespace Dispatch

/-- Claim C3: when the pending backend call of the running request
settles, exactly one outcome is observed — on success exactly one
assistant message is appended and neither the notifications nor the
error field change; on failure no assistant message is appended, an
error notification is appended and the shared error field is set.  In
both cases the request's epilogue clears the loading flag, and the queue
proceeds to the next entry (which becomes the running request). -/
theorem complete_request_dichotomy (maxLen : Nat) (s : DState) (r : Req)
    (res : Except Unit String) (t : Nat) (h : s.running = some r) :
    (∀ comp, res = .ok comp →
      asstIdxs (step maxLen s (.complete res t)).messages
          = asstIdxs s.messages ++ [r.idx] ∧
      (step maxLen s (.complete res t)).notifications = s.notifications ∧
      (step maxLen s (.complete res t)).error = s.error) ∧
    (res = .error () →
      asstIdxs (step maxLen s (.complete res t)).messages = asstIdxs s.messages ∧
      (step maxLen s (.complete res t)).notifications =
        s.notifications ++ [{ ntype := "error", message := "Error al procesar el mensaje" }] ∧
      (step maxLen s (.complete res t)).error = some "Error al procesar el mensaje") ∧
    (settleUnit r res t s).isLoading = false ∧
    (step maxLen s (.complete res t)).running = s.queue.head? ∧
    (step maxLen s (.complete res t)).queue = s.queue.tail ∧
    (s.queue = [] → (step maxLen s (.complete res t)).isLoading = false) := by
  cases res with
  | ok comp =>
    cases hq : s.queue with
    | nil =>
      refine ⟨?_, ?_, ?_, ?_, ?_, ?_⟩ <;>
        simp [step, h, settleUnit, startNext, hq, asstIdxs, userMsg, asstMsg]
    | cons q rest =>
      refine ⟨?_, ?_, ?_, ?_, ?_, ?_⟩ <;>
        simp [step, h, settleUnit, startNext, hq, asstIdxs, userMsg, asstMsg]
  | error u =>
    cases u
    cases hq : s.queue with
    | nil =>
      refine ⟨?_, ?_, ?_, ?_, ?_, ?_⟩ <;>
        simp [step, h, settleUnit, showError, startNext, hq, asstIdxs, userMsg, asstMsg]
    | cons q rest =>
      refine ⟨?_, ?_, ?_, ?_, ?_, ?_⟩ <;>
        simp [step, h, settleUnit, showError, startNext, hq, asstIdxs, userMsg, asstMsg]

/-- Witness for claim C3 at a concrete mid-flight state whose backend
call fails. -/
theorem complete_request_dichotomy_witness :
    (settleUnit { idx := 0, content := "hola", webSearch := false } (.error ()) 2
        busyState).isLoading = false ∧
    (step 10 busyState (.complete (.error ()) 2)).running = busyState.queue.head? :=
  ⟨(complete_request_dichotomy 10 busyState _ (.error ()) 2 rfl).2.2.1,
   (complete_request_dichotomy 10 busyState _ (.error ()) 2 rfl).2.2.2.1⟩

end Dispatch

namespace Dispatch

/-- Claim C10, counterexample: in the trace where a submission is
accepted at clock reading 5 and its backend call also completes at clock
reading 5, the user message and the assistant message both get id `5` —
message identifiers are not unique. -/
theorem duplicate_message_ids :
    ((run 10 [.submit "hola" false 5, .complete (.ok "resp") 5]).messages.map
        (fun m => m.msg.id)) = [5, 5] ∧
    ¬ ([5, 5] : List Nat).Nodup :=
  ⟨rfl, by decide⟩

/-- Every event appends only messages whose id equals their creation
timestamp (both are `Date.now()` of the same instant). -/
theorem ideq_step (maxLen : Nat) (s : DState) (e : Event)
    (h : ∀ m ∈ s.messages, m.msg.id = m.msg.timestamp) :
    ∀ m ∈ (step maxLen s e).messages, m.msg.id = m.msg.timestamp := by
  cases e with
  | submit c ws t =>
    by_cases hlen : c.length > maxLen
    · simpa [step, hlen, showError] using h
    · cases hr : s.running with
      | none =>
        intro m hm
        cases hq : s.queue with
        | nil =>
          simp only [step, if_neg hlen, hr, hq, Option.isNone_none, if_true,
            List.nil_append, startNext] at hm
          simp at hm
          rcases hm with hm' | hm'
          · exact h m hm'
          · rw [hm']
            rfl
        | cons q rest =>
          simp only [step, if_neg hlen, hr, hq, Option.isNone_none, if_true,
            List.cons_append, startNext] at hm
          simp at hm
          rcases hm with hm' | hm'
          · exact h m hm'
          · rw [hm']
            rfl
      | some r =>
        intro m hm
        simp only [step, if_neg hlen, hr] at hm
        have hno : (Option.isNone (some r)) = false := rfl
        rw [hno] at hm
        simp at hm
        exact h m hm
  | complete res t =>
    cases hr : s.running with
    | none =>
      simpa [step, hr] using h
    | some r =>
      intro m hm
      simp only [step, hr] at hm
      cases res with
      | ok comp =>
        simp only [settleUnit] at hm
        cases hq : s.queue with
        | nil =>
          rw [hq] at hm
          simp only [startNext] at hm
          simp at hm
          rcases hm with hm' | hm'
          · exact h m hm'
          · rw [hm']
            rfl
        | cons q rest =>
          rw [hq] at hm
          simp only [startNext] at hm
          simp at hm
          rcases hm with hm' | hm' | hm'
          · exact h m hm'
          · rw [hm']
            rfl
          · rw [hm']
            rfl
      | error u =>
        cases u
        simp only [settleUnit, showError] at hm
        cases hq : s.queue with
        | nil =>
          rw [hq] at hm
          simp only [startNext] at hm
          exact h m hm
        | cons q rest =>
          rw [hq] at hm
          simp only [startNext] at hm
          simp at hm
          rcases hm with hm' | hm'
          · exact h m hm'
          · rw [hm']
            rfl

/-- Id-equals-timestamp is preserved by every event sequence. -/
theorem ideq_foldl (maxLen : Nat) :
    ∀ (evs : List Event) (s : DState),
      (∀ m ∈ s.messages, m.msg.id = m.msg.timestamp) →
      ∀ m ∈ (evs.foldl (step maxLen) s).messages, m.msg.id = m.msg.timestamp
  | [], _, h => h
  | e :: evs, s, h => ideq_foldl maxLen evs _ (ideq_step maxLen s e h)

/-- Claim C10, amended: every Message's identifier is exactly the
millisecond clock reading at its generation (it coincides with the
creation timestamp), so identifiers are unique precisely when all
generation instants are; in particular distinct generation timestamps
give distinct ids. -/
theorem message_id_is_generation_time (maxLen : Nat) (events : List Event) :
    ((run maxLen events).messages.map (fun m => m.msg.id)
      = (run maxLen events).messages.map (fun m => m.msg.timestamp)) ∧
    (((run maxLen events).messages.map (fun m => m.msg.timestamp)).Nodup →
      ((run maxLen events).messages.map (fun m => m.msg.id)).Nodup) := by
  have hid : ∀ m ∈ (run maxLen events).messages, m.msg.id = m.msg.timestamp :=
    ideq_foldl maxLen events initState (by intro m hm; simp [initState] at hm)
  have hmap : (run maxLen events).messages.map (fun m => m.msg.id)
      = (run maxLen events).messages.map (fun m => m.msg.timestamp) :=
    List.map_congr_left hid
  exact ⟨hmap, fun hnd => hmap ▸ hnd⟩

end Dispatch

namespace WSearch

/-- Witness for claim C9: a concrete cache hit five milliseconds after
the write returns the cached list with zero collaborator calls. -/
theorem search_cache_semantics_witness :
    search 10 "q" [] [("q", { results := [], timestamp := 5 })] =
      ([], [("q", { results := [], timestamp := 5 })], 0) :=
  (search_cache_semantics 10 "q" [] [("q", { results := [], timestamp := 5 })]
      { results := [], timestamp := 5 } rfl).1 (by decide)

end WSearch
